import Mathlib

/-!
Verification of the resilient-client core of the LMStudio MCP bridge
(`src/lm-studio-client.ts`, `src/index.ts`) against its specification.

The embedding translates the TypeScript class `LMStudioClient` into pure
Lean functions over an explicit state record.  Timestamps are naturals in
milliseconds (mirroring `Date.now()`); JavaScript subtraction such as
`Date.now() - 60000` is mirrored by truncated `Nat` subtraction, which
agrees with the source for the realistic case `now ≥ 60000` (real epoch
times are ~1.7e12), and all theorems and witnesses below stay in that
range.  The asynchronous suspension structure of `complete` is modelled
twice: once as a sequential function (`complete`) describing a single
call running without interleaving, and once as a small-step interleaving
machine (`stepSys` / `runSched`) in which each scheduler turn of the
Node.js event loop is one atomic step, used for the concurrency claims.
-/

namespace LMBridge

instance instDecEqExcept {ε α : Type} [DecidableEq ε] [DecidableEq α] :
    DecidableEq (Except ε α) := fun x y =>
  match x, y with
  | .ok a, .ok b =>
    if h : a = b then .isTrue (by rw [h])
    else .isFalse (by intro hc; cases hc; exact h rfl)
  | .ok _, .error _ => .isFalse (by intro hc; cases hc)
  | .error _, .ok _ => .isFalse (by intro hc; cases hc)
  | .error e, .error f =>
    if h : e = f then .isTrue (by rw [h])
    else .isFalse (by intro hc; cases hc; exact h rfl)

/-- Configuration relevant to the client, from `config.ts`
(`rateLimit.enabled`, `rateLimit.maxRequestsPerMinute`,
`rateLimit.maxConcurrent`, `cache.enabled`, `cache.ttl` (seconds),
`lmStudio.maxRetries`, `lmStudio.retryDelay`, `lmStudio.timeout`). -/
structure Config where
  rateLimitEnabled : Bool
  maxRequestsPerMinute : Nat
  maxConcurrent : Nat
  cacheEnabled : Bool
  cacheTtl : Nat
  maxRetries : Nat
  retryDelay : Nat
  timeout : Nat
deriving DecidableEq, Repr

/-- One NodeCache entry: the key, the stored string, and the absolute
expiry time `storedAt + ttl * 1000` (NodeCache stores `t` in ms). -/
structure CacheEntry where
  key : String
  value : String
  expiresAt : Nat
deriving DecidableEq, Repr

/-- The mutable fields of class `LMStudioClient`
(`isHealthy`, `lastHealthCheck`, `activeRequests`, `totalRequests`,
`totalErrors`, `requestTimestamps`) plus the NodeCache contents. -/
structure ClientState where
  isHealthy : Bool
  lastHealthCheck : Nat
  activeRequests : Nat
  totalRequests : Nat
  totalErrors : Nat
  requestTimestamps : List Nat
  cache : List CacheEntry
deriving DecidableEq, Repr

/-- Constructor-time state: `isHealthy = false`, `lastHealthCheck = 0`,
all counters zero, empty window and cache. -/
def initialState : ClientState :=
  { isHealthy := false, lastHealthCheck := 0, activeRequests := 0,
    totalRequests := 0, totalErrors := 0, requestTimestamps := [], cache := [] }

/-- Failure of one remote attempt inside the pRetry block: either the
p-timeout `TimeoutError` (recognised by `error.name === 'TimeoutError'`),
an error reported by the endpoint, or a Zod schema-validation failure. -/
inductive AttemptErr where
  | timeoutError
  | remoteError (msg : String)
  | invalidResponse (msg : String)
deriving DecidableEq, Repr

/-- The `error.name === 'TimeoutError'` test from the catch block of
`complete` (line 183). -/
def AttemptErr.isTimeoutName : AttemptErr → Bool
  | .timeoutError => true
  | _ => false

/-- Failures surfaced by `complete` to its caller: the two admission
rejections thrown by `enforceRateLimit`, the health-gate rejection
(`LM Studio is not responding`), the re-branded timeout
(`Request timed out after Nms`), and a rethrown attempt error. -/
inductive Failure where
  | rateLimitExceeded
  | tooManyConcurrent
  | notResponding
  | timeoutSurfaced (ms : Nat)
  | attempt (e : AttemptErr)
deriving DecidableEq, Repr

/-- NodeCache `get`: return the stored value while it has not expired.
NodeCache treats an entry as live while `t ≥ Date.now()`. -/
def cacheGet (now : Nat) (cache : List CacheEntry) (key : String) : Option String :=
  match cache.find? (fun e => e.key = key) with
  | some e => if now ≤ e.expiresAt then some e.value else none
  | none => none

/-- NodeCache `set` with the configured `stdTTL` (seconds): overwrite any
entry with the same key, expiry `now + ttl * 1000`. -/
def cacheSet (now ttlSec : Nat) (cache : List CacheEntry) (key value : String) :
    List CacheEntry :=
  ⟨key, value, now + ttlSec * 1000⟩ :: cache.filter (fun e => e.key ≠ key)

/-- `checkHealth` (lines 46-69): a successful probe sets
`isHealthy := true` and refreshes `lastHealthCheck`; a failed probe only
sets `isHealthy := false` (it does not touch `lastHealthCheck`). -/
def checkHealth (now : Nat) (probeOk : Bool) (s : ClientState) : ClientState :=
  if probeOk then { s with isHealthy := true, lastHealthCheck := now }
  else { s with isHealthy := false }

/-- `enforceRateLimit` (lines 71-89).  The filtered timestamp list is
written back before either rejection is thrown, so the pruned state is
returned together with the failure, mirroring the mutation order of the
source.  On admission the current time is appended to the window. -/
def enforceRateLimit (cfg : Config) (now : Nat) (s : ClientState) :
    ClientState × Option Failure :=
  if cfg.rateLimitEnabled = false then (s, none)
  else
    let kept := s.requestTimestamps.filter (fun ts => now - 60000 < ts)
    let s1 := { s with requestTimestamps := kept }
    if cfg.maxRequestsPerMinute ≤ kept.length then (s1, some .rateLimitExceeded)
    else if cfg.maxConcurrent ≤ s1.activeRequests then (s1, some .tooManyConcurrent)
    else ({ s1 with requestTimestamps := kept ++ [now] }, none)

/-- Trace of one pRetry invocation: the final outcome (the value is the
optional first-choice message content of the validated response), the
total number of attempts performed, and the backoff delay applied before
each retry, in order. -/
structure RetryTrace where
  result : Except AttemptErr (Option String)
  attempts : Nat
  delays : List Nat
deriving DecidableEq, Repr

/-- Backoff of the `retry` package as configured at lines 144-147:
`minTimeout = retryDelay`, `maxTimeout = retryDelay * 3`, default
`factor = 2`, `randomize = false`; the delay before retry `n` is
`min(minTimeout * factor^(n-1), maxTimeout)`. -/
def retryDelayAfter (d n : Nat) : Nat := min (d * 2 ^ (n - 1)) (d * 3)

/-- pRetry loop: attempt number `n`, `retriesLeft` further retries
allowed.  A failed attempt with retries left sleeps `retryDelayAfter`
and retries; the final failure is surfaced as-is. -/
def pRetryAux (op : Nat → Except AttemptErr (Option String)) (d : Nat) :
    Nat → Nat → RetryTrace
  | n, 0 =>
    match op n with
    | .ok v => ⟨.ok v, 1, []⟩
    | .error e => ⟨.error e, 1, []⟩
  | n, retriesLeft + 1 =>
    match op n with
    | .ok v => ⟨.ok v, 1, []⟩
    | .error _ =>
      let rest := pRetryAux op d (n + 1) retriesLeft
      ⟨rest.result, rest.attempts + 1, retryDelayAfter d n :: rest.delays⟩

/-- `pRetry(fn, { retries, minTimeout: d, maxTimeout: d * 3 })`:
attempts are numbered from 1. -/
def pRetryRun (op : Nat → Except AttemptErr (Option String)) (retries d : Nat) :
    RetryTrace :=
  pRetryAux op d 1 retries

/-- The catch block of `complete` (lines 183-187): a final failure whose
name is `TimeoutError` is replaced by a fresh
`Request timed out after {timeout}ms` error; every other failure is
rethrown unmodified. -/
def surfaceFailure (timeoutMs : Nat) (e : AttemptErr) : Failure :=
  if e.isTimeoutName then .timeoutSurfaced timeoutMs else .attempt e

/-- Outcome of one `complete` call: the returned value or thrown failure,
the state of the client afterwards, the number of synchronous health
re-probes performed, and the number of remote completion attempts. -/
structure CompleteResult where
  result : Except Failure String
  state : ClientState
  probes : Nat
  remoteAttempts : Nat
deriving DecidableEq, Repr

/-- Lines 122-190 of `complete`: increment `activeRequests` and
`totalRequests`, run the pRetry block, extract
`choices[0]?.message?.content || ''`, store it in the cache when caching
is enabled and the cache key is truthy (a non-empty string), on failure
increment `totalErrors` and surface via the catch block; the `finally`
decrements `activeRequests` on every path. -/
def runRetryPhase (cfg : Config) (now : Nat)
    (op : Nat → Except AttemptErr (Option String)) (key : Option String)
    (probes : Nat) (s2 : ClientState) : CompleteResult :=
  let s3 := { s2 with activeRequests := s2.activeRequests + 1,
                      totalRequests := s2.totalRequests + 1 }
  let tr := pRetryRun op cfg.maxRetries cfg.retryDelay
  match tr.result with
  | .ok content =>
    let value := content.getD ""
    let s4 :=
      match key with
      | some k =>
        if cfg.cacheEnabled = true ∧ k ≠ "" then
          { s3 with cache := cacheSet now cfg.cacheTtl s3.cache k value }
        else s3
      | none => s3
    ⟨.ok value, { s4 with activeRequests := s4.activeRequests - 1 }, probes, tr.attempts⟩
  | .error e =>
    ⟨.error (surfaceFailure cfg.timeout e),
     { s3 with totalErrors := s3.totalErrors + 1,
               activeRequests := s3.activeRequests + 1 - 1 },
     probes, tr.attempts⟩

/-- Lines 118-120: after the optional re-probe, a still-unhealthy state
throws `LM Studio is not responding` before any counter is touched. -/
def afterHealth (cfg : Config) (now : Nat)
    (op : Nat → Except AttemptErr (Option String)) (key : Option String)
    (probes : Nat) (s2 : ClientState) : CompleteResult :=
  if s2.isHealthy = false then ⟨.error .notResponding, s2, probes, 0⟩
  else runRetryPhase cfg now op key probes s2

/-- Lines 113-116: when the state is unhealthy and the last probe is more
than 10 seconds old, one synchronous `checkHealth` runs (outcome
`probeOk`) before the health gate. -/
def afterAdmission (cfg : Config) (now : Nat) (probeOk : Bool)
    (op : Nat → Except AttemptErr (Option String)) (key : Option String)
    (s1 : ClientState) : CompleteResult :=
  if s1.isHealthy = false ∧ 10000 < now - s1.lastHealthCheck then
    afterHealth cfg now op key 1 (checkHealth now probeOk s1)
  else afterHealth cfg now op key 0 s1

/-- Lines 110-190 of `complete`: everything after the cache lookup.
An admission rejection escapes before any counter or health code runs. -/
def completeAfterCache (cfg : Config) (now : Nat) (probeOk : Bool)
    (op : Nat → Except AttemptErr (Option String)) (key : Option String)
    (s : ClientState) : CompleteResult :=
  match enforceRateLimit cfg now s with
  | (s1, some f) => ⟨.error f, s1, 0, 0⟩
  | (s1, none) => afterAdmission cfg now probeOk op key s1

/-- `complete` (lines 91-191).  The cache branch guards on the JavaScript
truthiness of both `options.cacheKey` and the looked-up value, so a
cached empty string falls through to the remote path exactly as
`if (cached)` does in the source. -/
def complete (cfg : Config) (now : Nat) (probeOk : Bool)
    (op : Nat → Except AttemptErr (Option String)) (cacheKey : Option String)
    (s : ClientState) : CompleteResult :=
  match cacheKey with
  | some key =>
    if cfg.cacheEnabled = true ∧ key ≠ "" then
      match cacheGet now s.cache key with
      | some cached =>
        if cached ≠ "" then
          ⟨.ok cached, { s with totalRequests := s.totalRequests + 1 }, 0, 0⟩
        else completeAfterCache cfg now probeOk op cacheKey s
      | none => completeAfterCache cfg now probeOk op cacheKey s
    else completeAfterCache cfg now probeOk op cacheKey s
  | none => completeAfterCache cfg now probeOk op cacheKey s

/-- Progress of one `complete` call through its scheduler turns.
`start` is a call about to run the admission segment (its cache lookup, a
synchronous miss, is folded into that segment); `probing` is a call
suspended on `await this.checkHealth()` between the admission check and
the `activeRequests++`; `running` is a call suspended on the remote
completion; the remaining phases are terminal. -/
inductive Phase where
  | start
  | probing
  | running
  | rejected
  | failedHealth
  | finished
deriving DecidableEq, Repr

/-- The shared client state together with the phase of each in-flight
`complete` call, for the interleaved execution model. -/
structure Sys where
  cs : ClientState
  phases : List Phase
deriving DecidableEq, Repr

/-- First scheduler turn of a `complete` call on a cache miss
(lines 110-124 up to the first `await`): run `enforceRateLimit`; if
admitted, either suspend on the synchronous re-probe (unhealthy and
stale), fail the health gate, or increment `activeRequests` and
`totalRequests` and start the remote call — all in one atomic turn. -/
def stepStart (cfg : Config) (now : Nat) (s : ClientState) : ClientState × Phase :=
  match enforceRateLimit cfg now s with
  | (s1, some _) => (s1, .rejected)
  | (s1, none) =>
    if s1.isHealthy = false ∧ 10000 < now - s1.lastHealthCheck then (s1, .probing)
    else if s1.isHealthy = false then (s1, .failedHealth)
    else ({ s1 with activeRequests := s1.activeRequests + 1,
                    totalRequests := s1.totalRequests + 1 }, .running)

/-- Resumption after `await this.checkHealth()` (lines 115-124): apply
the probe outcome, then either fail the health gate or perform the
increments and start the remote call, atomically. -/
def stepProbe (now : Nat) (probeOk : Bool) (s : ClientState) : ClientState × Phase :=
  let s1 := checkHealth now probeOk s
  if s1.isHealthy = false then (s1, .failedHealth)
  else ({ s1 with activeRequests := s1.activeRequests + 1,
                  totalRequests := s1.totalRequests + 1 }, .running)

/-- Resumption when the remote call settles (lines 157-190, counter
effects only): a failure increments `totalErrors`, and the `finally`
decrements `activeRequests`.  The cache write of the success path is
omitted here; it does not touch the admission state. -/
def stepFinish (remoteOk : Bool) (s : ClientState) : ClientState × Phase :=
  let s1 := if remoteOk then s else { s with totalErrors := s.totalErrors + 1 }
  ({ s1 with activeRequests := s1.activeRequests - 1 }, .finished)

/-- One scheduler turn: call `i` (if it exists and is not terminal)
advances by its current phase. -/
def stepSys (cfg : Config) (now : Nat) (probeOk remoteOk : Bool)
    (sys : Sys) (i : Nat) : Sys :=
  match sys.phases[i]? with
  | none => sys
  | some ph =>
    match ph with
    | .start =>
      let r := stepStart cfg now sys.cs
      ⟨r.1, sys.phases.set i r.2⟩
    | .probing =>
      let r := stepProbe now probeOk sys.cs
      ⟨r.1, sys.phases.set i r.2⟩
    | .running =>
      let r := stepFinish remoteOk sys.cs
      ⟨r.1, sys.phases.set i r.2⟩
    | _ => sys

/-- Run a schedule: each entry is (call index, current time, probe
outcome, remote outcome) for one scheduler turn. -/
def runSched (cfg : Config) (sys : Sys) : List (Nat × Nat × Bool × Bool) → Sys
  | [] => sys
  | (i, now, pk, rk) :: rest => runSched cfg (stepSys cfg now pk rk sys i) rest

/-- The server-level resources touched by shutdown: the client state,
the NodeCache sweep timer (cleared by `cache.close()`), the health-check
`setInterval` started in `startHealthCheckLoop` (its handle is never
stored), and the `isShuttingDown` flag of `LMStudioMCPServer`. -/
structure ServerState where
  client : ClientState
  cacheTimerActive : Bool
  healthLoopActive : Bool
  isShuttingDown : Bool
deriving DecidableEq, Repr

/-- `LMStudioClient.shutdown` (lines 254-258): `cache.flushAll()` then
`cache.close()`.  Nothing else is touched. -/
def shutdown (s : ServerState) : ServerState :=
  { s with client := { s.client with cache := [] }, cacheTimerActive := false }

/-! ### Helper lemmas -/

lemma enforceRateLimit_preserves (cfg : Config) (now : Nat) (s : ClientState) :
    ((enforceRateLimit cfg now s).1).isHealthy = s.isHealthy ∧
    ((enforceRateLimit cfg now s).1).lastHealthCheck = s.lastHealthCheck ∧
    ((enforceRateLimit cfg now s).1).activeRequests = s.activeRequests ∧
    ((enforceRateLimit cfg now s).1).totalRequests = s.totalRequests ∧
    ((enforceRateLimit cfg now s).1).totalErrors = s.totalErrors ∧
    ((enforceRateLimit cfg now s).1).cache = s.cache := by
  unfold enforceRateLimit
  split
  · exact ⟨rfl, rfl, rfl, rfl, rfl, rfl⟩
  · dsimp only
    split
    · exact ⟨rfl, rfl, rfl, rfl, rfl, rfl⟩
    · split
      · exact ⟨rfl, rfl, rfl, rfl, rfl, rfl⟩
      · exact ⟨rfl, rfl, rfl, rfl, rfl, rfl⟩

lemma enforceRateLimit_some_cases (cfg : Config) (now : Nat) (s s1 : ClientState)
    (f : Failure) (h : enforceRateLimit cfg now s = (s1, some f)) :
    f = Failure.rateLimitExceeded ∨ f = Failure.tooManyConcurrent := by
  unfold enforceRateLimit at h
  split at h
  · simp at h
  · dsimp only at h
    split at h
    · rw [Prod.mk.injEq] at h
      exact Or.inl (Option.some.inj h.2).symm
    · split at h
      · rw [Prod.mk.injEq] at h
        exact Or.inr (Option.some.inj h.2).symm
      · simp at h

lemma enforceRateLimit_none_spec (cfg : Config) (now : Nat) (s s1 : ClientState)
    (henb : cfg.rateLimitEnabled = true)
    (h : enforceRateLimit cfg now s = (s1, none)) :
    s1.requestTimestamps
      = s.requestTimestamps.filter (fun ts => now - 60000 < ts) ++ [now] ∧
    s1.activeRequests < cfg.maxConcurrent ∧
    (s.requestTimestamps.filter (fun ts => now - 60000 < ts)).length
      < cfg.maxRequestsPerMinute := by
  unfold enforceRateLimit at h
  rw [henb] at h
  simp only [Bool.true_eq_false, if_false] at h
  split at h
  · simp at h
  · split at h
    · simp at h
    · rename_i h1 h2
      rw [Prod.mk.injEq] at h
      obtain ⟨hs, -⟩ := h
      subst hs
      have h1' : ¬ (cfg.maxRequestsPerMinute
          ≤ (s.requestTimestamps.filter (fun ts => now - 60000 < ts)).length) := h1
      have h2' : ¬ (cfg.maxConcurrent ≤ s.activeRequests) := h2
      refine ⟨rfl, ?_, by omega⟩
      show s.activeRequests < cfg.maxConcurrent
      omega

lemma pRetryAux_allfail (op : Nat → Except AttemptErr (Option String))
    (errs : Nat → AttemptErr) (d : Nat)
    (hop : ∀ n, op n = Except.error (errs n)) :
    ∀ rl n, (pRetryAux op d n rl).result = Except.error (errs (n + rl)) ∧
      (pRetryAux op d n rl).attempts = rl + 1 := by
  intro rl
  induction rl with
  | zero => intro n; simp [pRetryAux, hop n]
  | succ k ih =>
    intro n
    obtain ⟨h1, h2⟩ := ih (n + 1)
    have e : n + 1 + k = n + (k + 1) := by omega
    constructor
    · simp only [pRetryAux, hop n]
      rw [h1, e]
    · simp only [pRetryAux, hop n]
      rw [h2]

lemma pRetryAux_delays_allfail (op : Nat → Except AttemptErr (Option String))
    (errs : Nat → AttemptErr) (d : Nat)
    (hop : ∀ n, op n = Except.error (errs n)) :
    ∀ rl n, (pRetryAux op d n rl).delays
      = (List.range rl).map (fun j => retryDelayAfter d (n + j)) := by
  intro rl
  induction rl with
  | zero => intro n; simp [pRetryAux, hop n]
  | succ k ih =>
    intro n
    simp only [pRetryAux, hop n]
    rw [ih (n + 1), List.range_succ_eq_map, List.map_cons, List.map_map]
    congr 1
    refine List.map_congr_left ?_
    intro a _
    show retryDelayAfter d (n + 1 + a) = retryDelayAfter d (n + (a + 1))
    have e : n + 1 + a = n + (a + 1) := by omega
    rw [e]

lemma retryDelayAfter_linear (d : Nat) :
    ∀ n, 1 ≤ n → retryDelayAfter d n = min (d * n) (d * 3) := by
  intro n h1
  match n, h1 with
  | 1, _ => simp [retryDelayAfter]
  | 2, _ => simp [retryDelayAfter]
  | (k + 3), _ =>
    have hp : (1 : ℕ) ≤ 2 ^ k := Nat.one_le_two_pow
    have e2 : (2 : ℕ) ^ (k + 2) = 4 * 2 ^ k := by rw [pow_succ, pow_succ]; ring
    have h3 : 3 ≤ (2 : ℕ) ^ (k + 2) := by omega
    show min (d * 2 ^ (k + 3 - 1)) (d * 3) = min (d * (k + 3)) (d * 3)
    have e1 : k + 3 - 1 = k + 2 := by omega
    rw [e1, Nat.min_eq_right (Nat.mul_le_mul_left d h3),
        Nat.min_eq_right (Nat.mul_le_mul_left d (by omega))]

/-! ### Shared concrete instances for witnesses and counterexamples -/

/-- Default-like configuration with `maxRetries = 3`, `retryDelay = 1000`,
rate limiting on with generous bounds, cache off. -/
def cfgRetry : Config := ⟨true, 10, 10, false, 300, 3, 1000, 30000⟩

/-- Rate-limit bound of one request per minute, cache on. -/
def cfgRate1 : Config := ⟨true, 1, 10, true, 300, 3, 1000, 30000⟩

/-- Rate-limit bound of two requests per minute. -/
def cfgRate2 : Config := ⟨true, 2, 10, true, 300, 3, 1000, 30000⟩

/-- A healthy client with a fresh probe and no other activity. -/
def healthyState : ClientState :=
  { initialState with isHealthy := true, lastHealthCheck := 95000 }

/-- A remote endpoint that times out on every attempt. -/
def opTimeout : Nat → Except AttemptErr (Option String) :=
  fun _ => Except.error AttemptErr.timeoutError

/-- A healthy client whose rate window already holds one fresh
timestamp. -/
def sFullWindow : ClientState :=
  { initialState with isHealthy := true, requestTimestamps := [99999] }

/-! ### Claims -/

/-- C2: when the wrapped operation fails on every attempt, the retry
block performs exactly `maxRetries + 1` attempts (the first plus
`maxRetries` retries), surfaces the failure of the final attempt as-is,
and `complete` rethrows a non-timeout final failure unmodified while a
`TimeoutError` final failure is surfaced as the distinguished timeout
failure. -/
theorem c2_retry_exhaustion (cfg : Config) (now : Nat) (probeOk : Bool)
    (op : Nat → Except AttemptErr (Option String)) (errs : Nat → AttemptErr)
    (key : Option String) (s s1 : ClientState)
    (hop : ∀ n, op n = Except.error (errs n))
    (hadm : enforceRateLimit cfg now s = (s1, none))
    (hh : s1.isHealthy = true) :
    (completeAfterCache cfg now probeOk op key s).remoteAttempts = cfg.maxRetries + 1 ∧
    (pRetryRun op cfg.maxRetries cfg.retryDelay).result
      = Except.error (errs (cfg.maxRetries + 1)) ∧
    (completeAfterCache cfg now probeOk op key s).result
      = Except.error (surfaceFailure cfg.timeout (errs (cfg.maxRetries + 1))) ∧
    (∀ e : AttemptErr, e.isTimeoutName = false →
        surfaceFailure cfg.timeout e = Failure.attempt e) ∧
    (∀ e : AttemptErr, e.isTimeoutName = true →
        surfaceFailure cfg.timeout e = Failure.timeoutSurfaced cfg.timeout) := by
  obtain ⟨hres, hatt⟩ :=
    pRetryAux_allfail op errs cfg.retryDelay hop cfg.maxRetries 1
  have hres' : (pRetryRun op cfg.maxRetries cfg.retryDelay).result
      = Except.error (errs (cfg.maxRetries + 1)) := by
    rw [pRetryRun, hres, Nat.add_comm 1 cfg.maxRetries]
  have hatt' : (pRetryRun op cfg.maxRetries cfg.retryDelay).attempts
      = cfg.maxRetries + 1 := by rw [pRetryRun, hatt]
  refine ⟨?_, hres', ?_, ?_, ?_⟩
  · simp [completeAfterCache, hadm, afterAdmission, hh, afterHealth,
      runRetryPhase, hres', hatt']
  · simp [completeAfterCache, hadm, afterAdmission, hh, afterHealth,
      runRetryPhase, hres', hatt']
  · intro e he; simp [surfaceFailure, he]
  · intro e he; simp [surfaceFailure, he]

/-- C2 witness: with `maxRetries = 3` and an always-timing-out endpoint,
exactly 4 attempts happen and the caller receives the timeout failure. -/
theorem c2_retry_exhaustion_witness :
    (completeAfterCache cfgRetry 100000 true opTimeout none healthyState).remoteAttempts = 4 ∧
    (completeAfterCache cfgRetry 100000 true opTimeout none healthyState).result
      = Except.error (Failure.timeoutSurfaced 30000) := by
  have h := c2_retry_exhaustion cfgRetry 100000 true opTimeout
      (fun _ => AttemptErr.timeoutError) none healthyState
      { healthyState with requestTimestamps := [100000] }
      (fun _ => rfl) (by decide) rfl
  exact ⟨h.1, by rw [h.2.2.1]; rfl⟩

/-- C3 amended: an execute call rejected at admission (by either limit)
fails with a distinct overloaded failure before any counter is touched:
neither totalRequests nor totalErrors is incremented (the source
increments totalRequests only after admission and the health gate, or on
a cache hit). -/
theorem c3_overload_counters (cfg : Config) (now : Nat) (probeOk : Bool)
    (op : Nat → Except AttemptErr (Option String)) (key : Option String)
    (s s1 : ClientState) (f : Failure)
    (hrej : enforceRateLimit cfg now s = (s1, some f)) :
    completeAfterCache cfg now probeOk op key s = ⟨Except.error f, s1, 0, 0⟩ ∧
    s1.totalRequests = s.totalRequests ∧
    s1.totalErrors = s.totalErrors ∧
    (f = Failure.rateLimitExceeded ∨ f = Failure.tooManyConcurrent) := by
  have hp := enforceRateLimit_preserves cfg now s
  rw [hrej] at hp
  refine ⟨by simp [completeAfterCache, hrej], hp.2.2.2.1, hp.2.2.2.2.1, ?_⟩
  exact enforceRateLimit_some_cases cfg now s s1 f hrej

/-- C3 witness: a concrete rejected call returns the overloaded failure
with both counters unchanged. -/
theorem c3_overload_counters_witness :
    completeAfterCache cfgRate1 100000 true opTimeout none sFullWindow
      = ⟨Except.error Failure.rateLimitExceeded, sFullWindow, 0, 0⟩ := by
  exact (c3_overload_counters cfgRate1 100000 true opTimeout none
    sFullWindow sFullWindow Failure.rateLimitExceeded (by decide)).1

/-- C3 counterexample: the claim says a rejected call increments
totalRequests; in the source the rejection is thrown before the
increment, so totalRequests is unchanged (0, not 1). -/
theorem c3_counterexample :
    (complete cfgRate1 100000 true opTimeout none sFullWindow).result
      = Except.error Failure.rateLimitExceeded ∧
    (complete cfgRate1 100000 true opTimeout none sFullWindow).state.totalRequests
      = sFullWindow.totalRequests ∧
    sFullWindow.totalRequests + 1 ≠ sFullWindow.totalRequests := by
  refine ⟨by decide, by decide, by decide⟩

/-- C6: the delay applied before retry `n` (for `n` in `1..maxRetries`,
when every attempt fails) equals `min(baseDelay * n, baseDelay * 3)`;
the delay list has exactly one entry per retry and none before the first
attempt.  The source configures the exponential backoff of `p-retry`
(`minTimeout = baseDelay`, `maxTimeout = baseDelay * 3`, factor 2), whose
delays coincide with the linear-capped formula at every `n ≥ 1`. -/
theorem c6_backoff_delays (d retries : Nat)
    (op : Nat → Except AttemptErr (Option String)) (errs : Nat → AttemptErr)
    (hop : ∀ n, op n = Except.error (errs n)) :
    (pRetryRun op retries d).delays
      = (List.range retries).map (fun j => min (d * (j + 1)) (d * 3)) := by
  rw [pRetryRun, pRetryAux_delays_allfail op errs d hop retries 1]
  refine List.map_congr_left ?_
  intro j _
  rw [retryDelayAfter_linear d (1 + j) (by omega), Nat.add_comm 1 j]

/-- C6 witness: with `baseDelay = 1000` and three retries the delays are
1000, 2000, 3000 ms. -/
theorem c6_backoff_delays_witness :
    (pRetryRun opTimeout 3 1000).delays = [1000, 2000, 3000] := by
  rw [c6_backoff_delays 1000 3 opTimeout (fun _ => AttemptErr.timeoutError)
    (fun _ => rfl)]
  rfl

/-- C8: with rate limiting enabled, an admission attempt whose pruned
window already holds at least `maxRequestsPerMinute` timestamps is
rejected with the overloaded rate-limit failure (the pruned window is
written back), and once the oldest timestamp is at least 60 seconds old
it is discarded by the next admission check, after which an admission
succeeds again (given free concurrency) and records the current time. -/
theorem c8_rate_window (cfg : Config) (henb : cfg.rateLimitEnabled = true) :
    (∀ now : Nat, ∀ s : ClientState,
      cfg.maxRequestsPerMinute
          ≤ (s.requestTimestamps.filter (fun ts => now - 60000 < ts)).length →
      enforceRateLimit cfg now s =
        ({ s with requestTimestamps :=
            s.requestTimestamps.filter (fun ts => now - 60000 < ts) },
         some Failure.rateLimitExceeded)) ∧
    (∀ now : Nat, ∀ s : ClientState, ∀ t0 : Nat, ∀ rest : List Nat,
      s.requestTimestamps = t0 :: rest →
      t0 ≤ now - 60000 →
      (∀ t ∈ rest, now - 60000 < t) →
      rest.length < cfg.maxRequestsPerMinute →
      s.activeRequests < cfg.maxConcurrent →
      enforceRateLimit cfg now s =
        ({ s with requestTimestamps := rest ++ [now] }, none)) := by
  constructor
  · intro now s h
    unfold enforceRateLimit
    rw [henb]
    simp only [Bool.true_eq_false, if_false]
    rw [if_pos h]
  · intro now s t0 rest hts h0 hrest hlen hact
    have hfil : s.requestTimestamps.filter (fun ts => now - 60000 < ts) = rest := by
      have hneg : ¬ (now - 60000 < t0) := by omega
      rw [hts, List.filter_cons, if_neg (by simpa using hneg)]
      exact List.filter_eq_self.mpr (fun a ha => by simpa using hrest a ha)
    unfold enforceRateLimit
    rw [henb]
    simp only [Bool.true_eq_false, if_false, hfil]
    rw [if_neg (by omega), if_neg (by omega)]

/-- C8 witness: with a bound of two per minute, a window holding two
fresh timestamps rejects, and a window whose oldest entry is 60 seconds
old drops it and admits, appending the current time. -/
theorem c8_rate_window_witness :
    enforceRateLimit cfgRate2 100000
        { initialState with requestTimestamps := [99998, 99999] }
      = ({ initialState with requestTimestamps := [99998, 99999] },
         some Failure.rateLimitExceeded) ∧
    enforceRateLimit cfgRate2 100000
        { initialState with requestTimestamps := [40000, 99999] }
      = ({ initialState with requestTimestamps := [99999, 100000] }, none) := by
  have h := c8_rate_window cfgRate2 rfl
  constructor
  · exact h.1 100000
      { initialState with requestTimestamps := [99998, 99999] } (by decide)
  · exact h.2 100000
      { initialState with requestTimestamps := [40000, 99999] } 40000 [99999]
      rfl (by decide) (by decide) (by decide) (by decide)

/-- C9 amended: `shutdown()` is idempotent, clears the cache and stops
the NodeCache sweep timer, and does not wait for active requests; but it
does not set the shutdown flag (only the signal handler in `index.ts`
sets `isShuttingDown`, and it never calls `shutdown()`), and it does not
stop the health monitor's periodic probe, whose interval handle is never
stored. -/
theorem c9_shutdown_behavior (s : ServerState) :
    shutdown (shutdown s) = shutdown s ∧
    (shutdown s).client.cache = [] ∧
    (shutdown s).cacheTimerActive = false ∧
    (shutdown s).healthLoopActive = s.healthLoopActive ∧
    (shutdown s).isShuttingDown = s.isShuttingDown ∧
    (shutdown s).client.activeRequests = s.client.activeRequests := by
  refine ⟨rfl, rfl, rfl, rfl, rfl, rfl⟩

/-- C9 counterexample: on a live server, `shutdown()` leaves the health
probe loop running and the shutdown flag unset, contradicting the claim
that each invocation sets the flag and stops the periodic probe. -/
theorem c9_counterexample :
    (shutdown { client := initialState, cacheTimerActive := true,
                healthLoopActive := true, isShuttingDown := false }).healthLoopActive
      = true ∧
    (shutdown { client := initialState, cacheTimerActive := true,
                healthLoopActive := true, isShuttingDown := false }).isShuttingDown
      = false := by
  exact ⟨rfl, rfl⟩

lemma checkHealth_preserves (now : Nat) (ok : Bool) (s : ClientState) :
    (checkHealth now ok s).activeRequests = s.activeRequests ∧
    (checkHealth now ok s).totalRequests = s.totalRequests ∧
    (checkHealth now ok s).totalErrors = s.totalErrors ∧
    (checkHealth now ok s).requestTimestamps = s.requestTimestamps ∧
    (checkHealth now ok s).cache = s.cache := by
  cases ok <;> simp [checkHealth]

lemma runRetryPhase_spec (cfg : Config) (now : Nat)
    (op : Nat → Except AttemptErr (Option String)) (key : Option String)
    (probes : Nat) (s2 : ClientState) :
    (runRetryPhase cfg now op key probes s2).probes = probes ∧
    (runRetryPhase cfg now op key probes s2).result
      ≠ Except.error Failure.notResponding := by
  cases hres : (pRetryRun op cfg.maxRetries cfg.retryDelay).result with
  | ok content =>
    constructor
    · simp only [runRetryPhase, hres]
    · simp only [runRetryPhase, hres]
      simp
  | error e =>
    constructor
    · simp only [runRetryPhase, hres]
    · simp only [runRetryPhase, hres]
      unfold surfaceFailure
      split <;> simp

lemma afterHealth_state_of_notResponding (cfg : Config) (now : Nat)
    (op : Nat → Except AttemptErr (Option String)) (key : Option String)
    (probes : Nat) (s2 : ClientState)
    (h : (afterHealth cfg now op key probes s2).result
        = Except.error Failure.notResponding) :
    afterHealth cfg now op key probes s2
      = ⟨Except.error Failure.notResponding, s2, probes, 0⟩ := by
  by_cases hh : s2.isHealthy = false
  · unfold afterHealth
    rw [if_pos hh]
  · exfalso
    unfold afterHealth at h
    rw [if_neg hh] at h
    exact (runRetryPhase_spec cfg now op key probes s2).2 h

/-- C4: a call dispatched while not healthy (including the initial state)
whose last probe is more than 10 seconds old triggers exactly one
synchronous re-probe, and fails with the endpoint-unavailable failure if
and only if the state is still unhealthy after that re-probe. -/
theorem c4_stale_reprobe (cfg : Config) (now : Nat) (probeOk : Bool)
    (op : Nat → Except AttemptErr (Option String)) (key : Option String)
    (s s1 : ClientState)
    (hadm : enforceRateLimit cfg now s = (s1, none))
    (hunh : s1.isHealthy = false)
    (hstale : 10000 < now - s1.lastHealthCheck) :
    (completeAfterCache cfg now probeOk op key s).probes = 1 ∧
    ((completeAfterCache cfg now probeOk op key s).result
        = Except.error Failure.notResponding ↔ probeOk = false) := by
  have hred : completeAfterCache cfg now probeOk op key s
      = afterAdmission cfg now probeOk op key s1 := by
    simp [completeAfterCache, hadm]
  rw [hred]
  unfold afterAdmission
  rw [if_pos ⟨hunh, hstale⟩]
  cases probeOk with
  | false =>
    have hch : checkHealth now false s1 = { s1 with isHealthy := false } := by
      simp [checkHealth]
    rw [hch]
    unfold afterHealth
    rw [if_pos rfl]
    exact ⟨rfl, by simp⟩
  | true =>
    have hch : checkHealth now true s1
        = { s1 with isHealthy := true, lastHealthCheck := now } := by
      simp [checkHealth]
    rw [hch]
    unfold afterHealth
    rw [if_neg (by simp)]
    obtain ⟨hp, hne⟩ := runRetryPhase_spec cfg now op key 1
      { s1 with isHealthy := true, lastHealthCheck := now }
    exact ⟨hp, by simp [hne]⟩

/-- C4 witness: from the initial state (unhealthy, last probe at 0) a
call at t=100000 performs one re-probe; a failing probe yields the
endpoint-unavailable failure. -/
theorem c4_stale_reprobe_witness :
    (completeAfterCache cfgRetry 100000 false opTimeout none initialState).probes = 1 ∧
    (completeAfterCache cfgRetry 100000 false opTimeout none initialState).result
      = Except.error Failure.notResponding := by
  have h := c4_stale_reprobe cfgRetry 100000 false opTimeout none initialState
    { initialState with requestTimestamps := [100000] } (by decide) rfl (by decide)
  exact ⟨h.1, h.2.mpr rfl⟩

/-- C10: a call that is admitted (a rate-window timestamp is recorded)
but then fails the health gate leaves totalRequests, totalErrors and
activeRequests untouched, and the recorded timestamp stays in the window
and counts against the per-minute budget of later admission checks. -/
theorem c10_admitted_unavailable (cfg : Config) (now : Nat) (probeOk : Bool)
    (op : Nat → Except AttemptErr (Option String)) (key : Option String)
    (s s1 : ClientState)
    (henb : cfg.rateLimitEnabled = true)
    (hadm : enforceRateLimit cfg now s = (s1, none))
    (hres : (completeAfterCache cfg now probeOk op key s).result
        = Except.error Failure.notResponding) :
    (completeAfterCache cfg now probeOk op key s).state.totalRequests = s.totalRequests ∧
    (completeAfterCache cfg now probeOk op key s).state.totalErrors = s.totalErrors ∧
    (completeAfterCache cfg now probeOk op key s).state.activeRequests = s.activeRequests ∧
    now ∈ (completeAfterCache cfg now probeOk op key s).state.requestTimestamps ∧
    (∀ now2 : Nat, now2 - 60000 < now →
      now ∈ (completeAfterCache cfg now probeOk op key s).state.requestTimestamps.filter
        (fun ts => now2 - 60000 < ts)) := by
  have hred : completeAfterCache cfg now probeOk op key s
      = afterAdmission cfg now probeOk op key s1 := by
    simp [completeAfterCache, hadm]
  rw [hred] at hres ⊢
  have hpres := enforceRateLimit_preserves cfg now s
  rw [hadm] at hpres
  obtain ⟨hts, -, -⟩ := enforceRateLimit_none_spec cfg now s s1 henb hadm
  have main : (afterAdmission cfg now probeOk op key s1).state.totalRequests = s.totalRequests ∧
      (afterAdmission cfg now probeOk op key s1).state.totalErrors = s.totalErrors ∧
      (afterAdmission cfg now probeOk op key s1).state.activeRequests = s.activeRequests ∧
      (afterAdmission cfg now probeOk op key s1).state.requestTimestamps
        = s.requestTimestamps.filter (fun ts => now - 60000 < ts) ++ [now] := by
    unfold afterAdmission at hres ⊢
    by_cases hc : (s1.isHealthy = false ∧ 10000 < now - s1.lastHealthCheck)
    · rw [if_pos hc] at hres ⊢
      rw [afterHealth_state_of_notResponding cfg now op key 1
        (checkHealth now probeOk s1) hres]
      obtain ⟨ha, hr, he, hw, -⟩ := checkHealth_preserves now probeOk s1
      exact ⟨by rw [hr, hpres.2.2.2.1], by rw [he, hpres.2.2.2.2.1],
        by rw [ha, hpres.2.2.1], by rw [hw, hts]⟩
    · rw [if_neg hc] at hres ⊢
      rw [afterHealth_state_of_notResponding cfg now op key 0 s1 hres]
      exact ⟨hpres.2.2.2.1, hpres.2.2.2.2.1, hpres.2.2.1, hts⟩
  obtain ⟨h1, h2, h3, h4⟩ := main
  have hmem : now ∈ (afterAdmission cfg now probeOk op key s1).state.requestTimestamps := by
    rw [h4]
    exact List.mem_append_right _ (by simp)
  refine ⟨h1, h2, h3, hmem, ?_⟩
  intro now2 hlt
  rw [List.mem_filter]
  exact ⟨hmem, by simpa using hlt⟩

/-- C10 witness: from the initial state, an admitted call that fails the
health gate records its timestamp yet changes no counter. -/
theorem c10_admitted_unavailable_witness :
    (completeAfterCache cfgRetry 100000 false opTimeout none initialState).state.totalRequests
      = initialState.totalRequests ∧
    (completeAfterCache cfgRetry 100000 false opTimeout none initialState).state.totalErrors
      = initialState.totalErrors ∧
    (completeAfterCache cfgRetry 100000 false opTimeout none initialState).state.activeRequests
      = initialState.activeRequests ∧
    100000 ∈ (completeAfterCache cfgRetry 100000 false opTimeout none
        initialState).state.requestTimestamps ∧
    100000 ∈ (completeAfterCache cfgRetry 100000 false opTimeout none
        initialState).state.requestTimestamps.filter (fun ts => 130000 - 60000 < ts) := by
  have h := c10_admitted_unavailable cfgRetry 100000 false opTimeout none initialState
    { initialState with requestTimestamps := [100000] } rfl (by decide) (by decide)
  exact ⟨h.1, h.2.1, h.2.2.1, h.2.2.2.1, h.2.2.2.2 130000 (by decide)⟩

/-- Cache and rate limiting both enabled, generous limits. -/
def cfgCache : Config := ⟨true, 10, 10, true, 300, 3, 1000, 30000⟩

/-- A remote endpoint that succeeds with content `hello`. -/
def opHello : Nat → Except AttemptErr (Option String) :=
  fun _ => Except.ok (some "hello")

/-- A remote endpoint that succeeds with an absent message content, so
the extracted result is the empty string. -/
def opNone : Nat → Except AttemptErr (Option String) :=
  fun _ => Except.ok none

/-- A healthy client holding a cached empty string under key `k`. -/
def sEmptyHit : ClientState :=
  { initialState with isHealthy := true, cache := [⟨"k", "", 1000000⟩] }

/-- A healthy client holding the cached value `v` under key `k`. -/
def sCachedV : ClientState :=
  { initialState with isHealthy := true, cache := [⟨"k", "v", 1000000⟩] }

lemma complete_hit (cfg : Config) (now : Nat) (probeOk : Bool)
    (op : Nat → Except AttemptErr (Option String)) (key v : String)
    (s : ClientState)
    (hc : cfg.cacheEnabled = true) (hk : key ≠ "")
    (hhit : cacheGet now s.cache key = some v) (hv : v ≠ "") :
    complete cfg now probeOk op (some key) s
      = ⟨Except.ok v, { s with totalRequests := s.totalRequests + 1 }, 0, 0⟩ := by
  unfold complete
  dsimp only
  rw [if_pos ⟨hc, hk⟩]
  simp only [hhit]
  rw [if_pos hv]

lemma afterHealth_ok_cache (cfg : Config) (now : Nat)
    (op : Nat → Except AttemptErr (Option String)) (key v : String)
    (probes : Nat) (s2 : ClientState)
    (hc : cfg.cacheEnabled = true) (hk : key ≠ "")
    (hv : (afterHealth cfg now op (some key) probes s2).result = Except.ok v) :
    (afterHealth cfg now op (some key) probes s2).state.cache
      = cacheSet now cfg.cacheTtl s2.cache key v := by
  unfold afterHealth at hv ⊢
  by_cases hh : s2.isHealthy = false
  · rw [if_pos hh] at hv
    simp at hv
  · rw [if_neg hh] at hv ⊢
    cases hres : (pRetryRun op cfg.maxRetries cfg.retryDelay).result with
    | error e =>
      simp only [runRetryPhase, hres] at hv
      simp at hv
    | ok content =>
      simp only [runRetryPhase, hres] at hv ⊢
      have hveq : content.getD "" = v := by simpa using hv
      rw [if_pos ⟨hc, hk⟩]
      rw [hveq]

lemma complete_ok_cache (cfg : Config) (now : Nat) (probeOk : Bool)
    (op : Nat → Except AttemptErr (Option String)) (key v : String)
    (s : ClientState)
    (hc : cfg.cacheEnabled = true) (hk : key ≠ "")
    (hmiss : cacheGet now s.cache key = none)
    (hok : (complete cfg now probeOk op (some key) s).result = Except.ok v) :
    (complete cfg now probeOk op (some key) s).state.cache
      = cacheSet now cfg.cacheTtl s.cache key v := by
  have hred : complete cfg now probeOk op (some key) s
      = completeAfterCache cfg now probeOk op (some key) s := by
    unfold complete
    dsimp only
    rw [if_pos ⟨hc, hk⟩]
    simp only [hmiss]
  rw [hred] at hok ⊢
  cases hE : enforceRateLimit cfg now s with
  | mk s1 o =>
    have hpres := enforceRateLimit_preserves cfg now s
    rw [hE] at hpres
    cases o with
    | some f =>
      rw [show completeAfterCache cfg now probeOk op (some key) s
          = ⟨Except.error f, s1, 0, 0⟩ from by simp [completeAfterCache, hE]] at hok
      simp at hok
    | none =>
      rw [show completeAfterCache cfg now probeOk op (some key) s
          = afterAdmission cfg now probeOk op (some key) s1 from by
        simp [completeAfterCache, hE]] at hok ⊢
      unfold afterAdmission at hok ⊢
      by_cases hstale : (s1.isHealthy = false ∧ 10000 < now - s1.lastHealthCheck)
      · rw [if_pos hstale] at hok ⊢
        rw [afterHealth_ok_cache cfg now op key v 1 (checkHealth now probeOk s1)
          hc hk hok]
        have hcc := (checkHealth_preserves now probeOk s1).2.2.2.2
        rw [hcc, hpres.2.2.2.2.2]
      · rw [if_neg hstale] at hok ⊢
        rw [afterHealth_ok_cache cfg now op key v 0 s1 hc hk hok]
        rw [hpres.2.2.2.2.2]

/-- C7 amended: a call with caching enabled and a truthy cache key whose
lookup returns a non-empty value returns that value immediately,
incrementing only totalRequests: no re-probe, no remote attempt, and the
active count, rate window, error counter and cache are unchanged.  (A
cached empty string is a lookup hit that the source's truthiness check
treats as a miss, so it falls through to the full path.) -/
theorem c7_cache_hit (cfg : Config) (now : Nat) (probeOk : Bool)
    (op : Nat → Except AttemptErr (Option String)) (key v : String)
    (s : ClientState)
    (hc : cfg.cacheEnabled = true) (hk : key ≠ "")
    (hhit : cacheGet now s.cache key = some v) (hv : v ≠ "") :
    complete cfg now probeOk op (some key) s
      = ⟨Except.ok v, { s with totalRequests := s.totalRequests + 1 }, 0, 0⟩ :=
  complete_hit cfg now probeOk op key v s hc hk hhit hv

/-- C7 witness: a concrete hit on a non-empty cached value returns it
with no probe and no remote attempt. -/
theorem c7_cache_hit_witness :
    complete cfgCache 100000 true opHello (some "k") sCachedV
      = ⟨Except.ok "v", { sCachedV with totalRequests := 1 }, 0, 0⟩ := by
  exact c7_cache_hit cfgCache 100000 true opHello "k" "v" sCachedV
    rfl (by decide) (by decide) (by decide)

/-- C7 counterexample: a lookup that hits a cached empty string does not
return it immediately — the call goes on to admission (the rate window
gains a timestamp) and performs a remote attempt, contradicting the
claim for this hit. -/
theorem c7_counterexample :
    cacheGet 100000 sEmptyHit.cache "k" = some "" ∧
    (complete cfgCache 100000 true opHello (some "k") sEmptyHit).remoteAttempts = 1 ∧
    (complete cfgCache 100000 true opHello (some "k")
        sEmptyHit).state.requestTimestamps = [100000] := by
  refine ⟨by decide, by decide, by decide⟩

/-- C5 amended: two calls with the same truthy cache key and caching
enabled, where the first is a cache miss that succeeds with a non-empty
result and the second runs before the stored entry's TTL elapses,
perform no remote attempt on the second call: it is served from the
cache with the value the first call stored.  (If the first call's result
is the empty string the truthiness check treats the second lookup as a
miss and a second remote call happens.) -/
theorem c5_idempotence (cfg : Config) (now1 now2 : Nat) (pk1 pk2 : Bool)
    (op1 op2 : Nat → Except AttemptErr (Option String)) (key v : String)
    (s : ClientState)
    (hc : cfg.cacheEnabled = true) (hk : key ≠ "")
    (hmiss : cacheGet now1 s.cache key = none)
    (hok : (complete cfg now1 pk1 op1 (some key) s).result = Except.ok v)
    (hv : v ≠ "")
    (hfresh : now2 ≤ now1 + cfg.cacheTtl * 1000) :
    (complete cfg now2 pk2 op2 (some key)
        (complete cfg now1 pk1 op1 (some key) s).state).result = Except.ok v ∧
    (complete cfg now2 pk2 op2 (some key)
        (complete cfg now1 pk1 op1 (some key) s).state).remoteAttempts = 0 ∧
    (complete cfg now2 pk2 op2 (some key)
        (complete cfg now1 pk1 op1 (some key) s).state).probes = 0 := by
  have hcache := complete_ok_cache cfg now1 pk1 op1 key v s hc hk hmiss hok
  have hhit : cacheGet now2 (complete cfg now1 pk1 op1 (some key) s).state.cache key
      = some v := by
    rw [hcache]
    unfold cacheSet cacheGet
    rw [List.find?_cons_of_pos _ (by simp)]
    dsimp only
    rw [if_pos hfresh]
  rw [complete_hit cfg now2 pk2 op2 key v _ hc hk hhit hv]
  exact ⟨rfl, rfl, rfl⟩

/-- C5 witness: a successful first call stores `hello`; a second call
50 seconds later is served from the cache with no remote attempt. -/
theorem c5_idempotence_witness :
    (complete cfgCache 150000 true opHello (some "k")
        (complete cfgCache 100000 true opHello (some "k") healthyState).state).result
      = Except.ok "hello" ∧
    (complete cfgCache 150000 true opHello (some "k")
        (complete cfgCache 100000 true opHello (some "k") healthyState).state).remoteAttempts
      = 0 := by
  have h := c5_idempotence cfgCache 100000 150000 true true opHello opHello
    "k" "hello" healthyState rfl (by decide) (by decide) (by decide) (by decide)
    (by decide)
  exact ⟨h.1, h.2.1⟩

/-- C5 counterexample: when the first call's stored result is the empty
string (absent message content), the second call within the TTL is not
served from the cache — both calls reach the remote endpoint, so two
remote calls are performed for the pair. -/
theorem c5_counterexample :
    (complete cfgCache 100000 true opNone (some "k") healthyState).result
      = Except.ok "" ∧
    (complete cfgCache 100000 true opNone (some "k") healthyState).remoteAttempts = 1 ∧
    (complete cfgCache 150000 true opNone (some "k")
        (complete cfgCache 100000 true opNone (some "k") healthyState).state).remoteAttempts
      = 1 := by
  refine ⟨by decide, by decide, by decide⟩

/-- Invariant for interleaved executions in which the health state is
(and stays) healthy, so no call ever suspends between the admission
check and the `activeRequests++`: the active count is bounded by the
concurrency limit. -/
def HealthyInv (cfg : Config) (sys : Sys) : Prop :=
  sys.cs.isHealthy = true ∧ Phase.probing ∉ sys.phases ∧
  sys.cs.activeRequests ≤ cfg.maxConcurrent

lemma probing_not_mem_set {l : List Phase} {i : Nat} {p : Phase}
    (hnp : Phase.probing ∉ l) (hp : p ≠ Phase.probing) :
    Phase.probing ∉ l.set i p := by
  intro hmem
  rcases List.mem_or_eq_of_mem_set hmem with h | h
  · exact hnp h
  · exact hp h.symm

lemma stepFinish_fields (rk : Bool) (s : ClientState) :
    (stepFinish rk s).1.isHealthy = s.isHealthy ∧
    (stepFinish rk s).1.activeRequests = s.activeRequests - 1 ∧
    (stepFinish rk s).2 = Phase.finished := by
  cases rk <;> simp [stepFinish]

lemma stepStart_healthy_cases (cfg : Config) (henb : cfg.rateLimitEnabled = true)
    (now : Nat) (s : ClientState) (hh : s.isHealthy = true) :
    ((stepStart cfg now s).2 = Phase.rejected ∧
      (stepStart cfg now s).1.isHealthy = true ∧
      (stepStart cfg now s).1.activeRequests = s.activeRequests) ∨
    ((stepStart cfg now s).2 = Phase.running ∧
      (stepStart cfg now s).1.isHealthy = true ∧
      (stepStart cfg now s).1.activeRequests = s.activeRequests + 1 ∧
      s.activeRequests < cfg.maxConcurrent) := by
  unfold stepStart
  cases hE : enforceRateLimit cfg now s with
  | mk s1 o =>
    have hpres := enforceRateLimit_preserves cfg now s
    rw [hE] at hpres
    dsimp only at hpres
    cases o with
    | some f =>
      dsimp only
      exact Or.inl ⟨rfl, by rw [hpres.1]; exact hh, hpres.2.2.1⟩
    | none =>
      obtain ⟨-, hlt, -⟩ := enforceRateLimit_none_spec cfg now s s1 henb hE
      dsimp only
      rw [if_neg (by rw [hpres.1, hh]; simp), if_neg (by rw [hpres.1, hh]; simp)]
      refine Or.inr ⟨rfl, ?_, ?_, ?_⟩
      · show s1.isHealthy = true
        rw [hpres.1]; exact hh
      · show s1.activeRequests + 1 = s.activeRequests + 1
        rw [hpres.2.2.1]
      · rw [← hpres.2.2.1]; exact hlt

lemma stepSys_healthyInv (cfg : Config) (henb : cfg.rateLimitEnabled = true)
    (now : Nat) (pk rk : Bool) (sys : Sys) (i : Nat)
    (h : HealthyInv cfg sys) : HealthyInv cfg (stepSys cfg now pk rk sys i) := by
  obtain ⟨hh, hnp, hle⟩ := h
  unfold stepSys
  cases hgi : sys.phases[i]? with
  | none => exact ⟨hh, hnp, hle⟩
  | some ph =>
    cases ph with
    | start =>
      rcases stepStart_healthy_cases cfg henb now sys.cs hh with
        ⟨h1, h2, h3⟩ | ⟨h1, h2, h3, h4⟩
      · exact ⟨h2, probing_not_mem_set hnp (by rw [h1]; intro hc; cases hc),
          by rw [h3]; exact hle⟩
      · exact ⟨h2, probing_not_mem_set hnp (by rw [h1]; intro hc; cases hc),
          by rw [h3]; omega⟩
    | probing => exact absurd (List.getElem?_mem hgi) hnp
    | running =>
      obtain ⟨h1, h2, h3⟩ := stepFinish_fields rk sys.cs
      exact ⟨by rw [h1]; exact hh,
        probing_not_mem_set hnp (by rw [h3]; intro hc; cases hc),
        by rw [h2]; omega⟩
    | rejected => exact ⟨hh, hnp, hle⟩
    | failedHealth => exact ⟨hh, hnp, hle⟩
    | finished => exact ⟨hh, hnp, hle⟩

lemma runSched_healthyInv (cfg : Config) (henb : cfg.rateLimitEnabled = true)
    (sys : Sys) (sched : List (Nat × Nat × Bool × Bool))
    (h : HealthyInv cfg sys) : HealthyInv cfg (runSched cfg sys sched) := by
  induction sched generalizing sys with
  | nil => exact h
  | cons e rest ih =>
    obtain ⟨i, now, pk, rk⟩ := e
    exact ih _ (stepSys_healthyInv cfg henb now pk rk sys i h)

/-- Concurrency bound of one, for the concurrency-limit scenarios. -/
def cfgConc : Config := ⟨true, 10, 1, false, 300, 3, 1000, 30000⟩

/-- C1 amended: with rate limiting enabled and the health state healthy
(so no admitted call suspends between the admission check and the
increment), the active-request count never exceeds the configured
concurrency bound under any interleaving; an admission step issued while
the bound is reached is rejected without changing the active count, and
an admission step issued with free capacity (and a non-full rate window)
is admitted and increments the count.  When admitted calls do suspend on
the synchronous health re-probe between the check and the increment, the
bound can be exceeded (see the counterexample). -/
theorem c1_concurrency_bound (cfg : Config) (henb : cfg.rateLimitEnabled = true) :
    (∀ sys : Sys, ∀ sched : List (Nat × Nat × Bool × Bool),
      HealthyInv cfg sys →
      (runSched cfg sys sched).cs.activeRequests ≤ cfg.maxConcurrent) ∧
    (∀ now : Nat, ∀ s : ClientState, s.isHealthy = true →
      cfg.maxConcurrent ≤ s.activeRequests →
      (stepStart cfg now s).2 = Phase.rejected ∧
      (stepStart cfg now s).1.activeRequests = s.activeRequests) ∧
    (∀ now : Nat, ∀ s : ClientState, s.isHealthy = true →
      s.activeRequests < cfg.maxConcurrent →
      (s.requestTimestamps.filter (fun ts => now - 60000 < ts)).length
        < cfg.maxRequestsPerMinute →
      (stepStart cfg now s).2 = Phase.running ∧
      (stepStart cfg now s).1.activeRequests = s.activeRequests + 1) := by
  refine ⟨?_, ?_, ?_⟩
  · intro sys sched h
    exact (runSched_healthyInv cfg henb sys sched h).2.2
  · intro now s hh hge
    rcases stepStart_healthy_cases cfg henb now s hh with
      ⟨h1, -, h3⟩ | ⟨-, -, -, h4⟩
    · exact ⟨h1, h3⟩
    · omega
  · intro now s hh hlt hwin
    rcases stepStart_healthy_cases cfg henb now s hh with
      ⟨h1, -, -⟩ | ⟨h1, -, h3, -⟩
    · exfalso
      unfold stepStart at h1
      rw [show enforceRateLimit cfg now s
          = ({ s with requestTimestamps :=
              s.requestTimestamps.filter (fun ts => now - 60000 < ts) ++ [now] },
             none) from ?_] at h1
      · dsimp only at h1
        rw [if_neg (by rw [hh]; simp), if_neg (by rw [hh]; simp)] at h1
        cases h1
      · unfold enforceRateLimit
        rw [henb]
        simp only [Bool.true_eq_false, if_false]
        rw [if_neg (by omega)]
        rw [if_neg (show ¬ (cfg.maxConcurrent ≤ s.activeRequests) from by omega)]
    · exact ⟨h1, h3⟩

/-- C1 witness: with bound one and a healthy state, two interleaved
admissions keep the count at most one; a rejected step at full capacity
and an admitted step with free capacity behave as stated. -/
theorem c1_concurrency_bound_witness :
    (runSched cfgConc ⟨healthyState, [Phase.start, Phase.start]⟩
        [(0, 100000, true, true), (1, 100000, true, true)]).cs.activeRequests
      ≤ cfgConc.maxConcurrent ∧
    (stepStart cfgConc 100000 { healthyState with activeRequests := 1 }).2
      = Phase.rejected ∧
    (stepStart cfgConc 100000 healthyState).2 = Phase.running := by
  have h := c1_concurrency_bound cfgConc rfl
  refine ⟨h.1 ⟨healthyState, [Phase.start, Phase.start]⟩ _ ⟨rfl, by decide, by decide⟩,
    (h.2.1 100000 { healthyState with activeRequests := 1 } rfl (by decide)).1,
    (h.2.2 100000 healthyState rfl (by decide) (by decide)).1⟩

/-- C1 counterexample: with concurrency bound one, two calls that both
pass the admission check while unhealthy-and-stale, suspend on the
synchronous re-probe, and resume after a successful probe are both
admitted: the active count reaches two and the second concurrent call is
running, not rejected — so the bound does not hold across the suspension
between the admission check and the increment. -/
theorem c1_counterexample :
    cfgConc.maxConcurrent = 1 ∧
    (runSched cfgConc ⟨initialState, [Phase.start, Phase.start]⟩
        [(0, 100000, true, true), (1, 100000, true, true),
         (0, 100001, true, true), (1, 100002, true, true)]).cs.activeRequests = 2 ∧
    (runSched cfgConc ⟨initialState, [Phase.start, Phase.start]⟩
        [(0, 100000, true, true), (1, 100000, true, true),
         (0, 100001, true, true), (1, 100002, true, true)]).phases
      = [Phase.running, Phase.running] := by
  refine ⟨rfl, by decide, by decide⟩

end LMBridge
